import Mathlib

/-!
Shallow embedding of bin/check_samplesheet.py, the samplesheet validation
and transformation script.

A table (pandas DataFrame) is modelled as a list of column names plus a
list of rows whose cells are Option String: none models a pandas missing
value (NaN).  The CSV loader and writer are abstracted away: validate and
transform act on the in-memory table, and check_samplesheet returns the
two output tables produced on success.

Python regular-expression matching is embedded per pattern shape: re.match
anchors at the start of the string, so a bare or caret-anchored literal
matches exactly when it is a prefix of the label, and a literal followed
by a dollar anchor matches exactly when the label equals the literal (we
ignore the corner case of a label ending in a newline, which cannot come
out of a CSV field here).

pandas semantics that matter and are modelled explicitly:
- Series.all() skips missing values (skipna defaults to true), and a
  string is truthy exactly when it is nonempty;
- Series.map(f) with no na_action applies f to missing values too, which
  raises a TypeError or AttributeError inside the helper functions;
- Series.map(f, na_action="ignore") skips missing values;
- Series.duplicated flags every occurrence after the first, with missing
  values compared equal to each other;
- Series.unique keeps a single missing value, while Series.nunique counts
  distinct non-missing values only;
- groupby("sample") drops rows with a missing key and sorts the keys.
-/

namespace CheckSamplesheet

/-- One row of the design table.  Cells are Option String: none models a
pandas missing value (NaN).  The run_accession and instrument_platform
fields are meaningful only when the corresponding column name appears in
the design columns; the code never reads them otherwise, and the
transformer overwrites them when the column is absent. -/
structure Row where
  sample : Option String
  read_1 : Option String
  read_2 : Option String
  group : Option String
  run_accession : Option String := none
  instrument_platform : Option String := none
deriving DecidableEq

/-- The in-memory design table: column names plus rows. -/
structure Design where
  cols : List String
  rows : List Row
deriving DecidableEq

/-- How a run of the script aborts.  printError models the print_error
helper (prints the ERROR diagnostic to stdout and calls sys.exit(1));
assertFail models a failing bare assert statement (AssertionError:
traceback on stderr, exit code 1, nothing on stdout); pyError models any
other uncaught exception, such as the TypeError or AttributeError raised
when a helper is mapped over a missing value (traceback, exit code 1). -/
inductive VError where
  | printError (error : String) (context : String) (contextStr : String)
  | assertFail (msg : String)
  | pyError (msg : String)
deriving DecidableEq

/-- Exit code of an aborted run: sys.exit(1) and an uncaught exception
both terminate the process with exit code 1. -/
def VError.exitCode : VError → Nat
  | _ => 1

/-- What an aborted run prints to standard output.  print_error prints
the prefixed diagnostic, with a second context line when both context
arguments are nonempty (the quote characters around the context value are
omitted here); an AssertionError or another exception prints a traceback
to stderr and nothing to stdout. -/
def VError.stdoutput : VError → Option String
  | .printError e c s =>
      some (if c != "" && s != "" then
              "ERROR: Please check samplesheet -> " ++ e ++ "\n" ++ c.trim ++ ": " ++ s.trim
            else
              "ERROR: Please check samplesheet -> " ++ e)
  | .assertFail _ => none
  | .pyError _ => none

/-- re.match of the anchored legality pattern over a single character:
letters for the first position. -/
def isLetter (c : Char) : Bool :=
  (decide ('a' ≤ c) && decide (c ≤ 'z')) || (decide ('A' ≤ c) && decide (c ≤ 'Z'))

/-- Characters allowed after the first position of a legal label. -/
def isLegalTailChar (c : Char) : Bool :=
  isLetter c || (decide ('0' ≤ c) && decide (c ≤ '9')) || c == '_'

/-- re.match of the fully anchored legality pattern from the source:
a letter followed by letters, digits or underscores, to the end. -/
def matchesLegalPattern (s : String) : Bool :=
  match s.data with
  | [] => false
  | c :: cs => isLetter c && cs.all isLegalTailChar

/-- One entry of the illegal_patterns list, by shape: a bare literal, a
caret-anchored literal, or a literal with a trailing dollar anchor. -/
inductive Pat where
  | bare (s : String)
  | caret (s : String)
  | dollar (s : String)
deriving DecidableEq

/-- The raw pattern text, as it appears in the source list and in the
error context printed on a reserved-string hit. -/
def Pat.raw : Pat → String
  | .bare s => s
  | .caret s => "^" ++ s
  | .dollar s => s ++ "$"

/-- re.match of one illegal pattern against a label: a bare or
caret-anchored literal matches iff it is a prefix of the label, and a
dollar-anchored literal matches iff the label equals the literal. -/
def Pat.match : Pat → String → Bool
  | .bare p, label => p.data.isPrefixOf label.data
  | .caret p, label => p.data.isPrefixOf label.data
  | .dollar p, label => label == p

/-- The illegal_patterns list from match_legal_pattern, in source order. -/
def illegal_patterns : List Pat :=
  [.bare "_tophat", .bare "ReadsPerGene", .bare "_star_aligned", .bare "_fastqc",
   .bare "_counts", .bare "Aligned", .bare "_slamdunk", .bare "_bismark",
   .bare "_SummaryStatistics", .bare "_duprate", .bare "_vep", .bare "ccs",
   .bare "_NanoStats",
   .dollar "_trimmed", .dollar "_val", .dollar "_mqc", .dollar "short_summary_",
   .caret "short_summary_", .dollar "_summary", .dollar "_matrix",
   .dollar "_", .dollar "_R1", .dollar "_R2"]

/-- match_legal_pattern from the source: the legality-pattern test, then
the reserved-pattern scan in list order; print_error aborts on the first
hit, otherwise the function returns True. -/
def match_legal_pattern (label : String) : Except VError Bool :=
  if !matchesLegalPattern label then
    .error (.printError
      "Sample/Group label contain illegal characters or does not start with letters"
      "Label" label)
  else
    match illegal_patterns.find? (fun p => p.match label) with
    | some p => .error (.printError
        ("Sample/Group label " ++ label ++
         " contain string reserved by pipeline or MultiQC. This may cause a problem.")
        "Reserved string" p.raw)
    | none => .ok true

/-- Whether match_legal_pattern accepts the label (returns True rather
than aborting). -/
def labelAccepted (label : String) : Bool :=
  match match_legal_pattern label with
  | .ok _ => true
  | .error _ => false

/-- The FQ_EXTENSIONS tuple from the source. -/
def FQ_EXTENSIONS : List String := [".fq.gz", ".fastq.gz"]

/-- str.endswith against the FQ_EXTENSIONS tuple. -/
def hasFqSuffix (s : String) : Bool :=
  FQ_EXTENSIONS.any (fun e => e.data.isSuffixOf s.data)

/-- check_fastq_suffix from the source. -/
def check_fastq_suffix (filename : String) : Except VError Bool :=
  if !hasFqSuffix filename then
    .error (.printError "FASTQ path has invalid extension" "Path" filename)
  else
    .ok true

/-- Series.map(f) with no na_action, followed by .all(): f runs on every
cell in order, and applying a helper to a missing value raises exc. -/
def mapThenAll (f : String → Except VError Bool) (exc : VError) :
    List (Option String) → Except VError Bool
  | [] => .ok true
  | none :: _ => .error exc
  | some s :: rest => do
      let b ← f s
      let r ← mapThenAll f exc rest
      pure (b && r)

/-- Series.map(f, na_action="ignore") followed by .all(): missing values
are skipped by the map and then by the skipna reduction. -/
def mapIgnoreNaThenAll (f : String → Except VError Bool) :
    List (Option String) → Except VError Bool
  | [] => .ok true
  | none :: rest => mapIgnoreNaThenAll f rest
  | some s :: rest => do
      let b ← f s
      let r ← mapIgnoreNaThenAll f rest
      pure (b && r)

/-- Series.duplicated flags: an entry is flagged iff an equal value
occurred earlier (missing values compare equal to each other). -/
def dupFlags [DecidableEq α] (seen : List α) : List α → List Bool
  | [] => []
  | v :: rest => (decide (v ∈ seen)) :: dupFlags (v :: seen) rest

/-- Series.duplicated().any(). -/
def hasDuplicates [DecidableEq α] (l : List α) : Bool :=
  (dupFlags [] l).any id

/-- Distinct values of a list, first occurrences kept (Series.unique),
written with an accumulator of already-seen values. -/
def dedupAux [DecidableEq α] (seen : List α) : List α → List α
  | [] => []
  | v :: rest => if v ∈ seen then dedupAux seen rest else v :: dedupAux (v :: seen) rest

/-- Series.unique as a list. -/
def dedupList [DecidableEq α] (l : List α) : List α :=
  dedupAux [] l

/-- Lexicographic comparison of char lists by code point, the order in
which Python sorts strings. -/
def charListLe : List Char → List Char → Bool
  | [], _ => true
  | _ :: _, [] => false
  | a :: as, b :: bs =>
      if decide (a < b) then true
      else if decide (b < a) then false
      else charListLe as bs

/-- Insertion into a sorted list of strings, used to model the sorted
group keys produced by groupby. -/
def insertSorted (s : String) : List String → List String
  | [] => [s]
  | t :: rest => if charListLe s.data t.data then s :: t :: rest else t :: insertSorted s rest

/-- Insertion sort over strings. -/
def sortStrings (l : List String) : List String :=
  l.foldr insertSorted []

/-- groupby keys: distinct non-missing values, sorted (groupby drops
missing keys and sorts the remaining ones). -/
def groupKeys (vals : List (Option String)) : List String :=
  sortStrings (dedupList (vals.filterMap id))

/-- The rows of one groupby group: the rows whose sample equals the key,
in original order. -/
def groupOf (rows : List Row) (k : String) : List Row :=
  rows.filter (fun r => decide (r.sample = some k))

/-- Series.count of one column of a group: the number of non-missing
values. -/
def seriesCount (vals : List (Option String)) : Nat :=
  (vals.filterMap id).length

/-- check_all_se_or_all_pe from the source: within one sample group, the
count of non-missing read_2 values is zero or equals the count of
non-missing read_1 values. -/
def check_all_se_or_all_pe (g : List Row) : Bool :=
  seriesCount (g.map Row.read_2) == 0 ||
  seriesCount (g.map Row.read_2) == seriesCount (g.map Row.read_1)

/-- len(x.unique()) == 1 for the group labels of one sample group. -/
def groupLabelConsistent (g : List Row) : Bool :=
  (dedupList (g.map Row.group)).length == 1

/-- nunique of the run_accession column of one group: distinct
non-missing values. -/
def accNunique (g : List Row) : Nat :=
  (dedupList ((g.map Row.run_accession).filterMap id)).length

/-- The required-columns set from the source (a Python set literal; the
order here is the order in which it is written in the source). -/
def HEADER : List String := ["sample", "read_1", "read_2", "group"]

/-- design["sample"].duplicated().any(). -/
def hasDupSamples (t : Design) : Bool :=
  hasDuplicates (t.rows.map Row.sample)

/-- The TypeError raised when re.match is applied to a missing value
(check 2 hits it if a sample label is missing). -/
def typeErr : VError := .pyError "TypeError: expected string or bytes-like object"

/-- The AttributeError raised when str.endswith is applied to a missing
value (check 6 hits it if a read_1 path is missing). -/
def attrErr : VError := .pyError "AttributeError: nan has no attribute endswith"

/-- Check 1: the four required columns are a subset of the table columns,
else a bare assert fails.  The real message joins a Python set, whose
iteration order is unspecified; we fix the source order. -/
def check1 (t : Design) : Except VError Unit :=
  if HEADER.all (fun c => decide (c ∈ t.cols)) then .ok ()
  else .error (.assertFail
    ("Design file must contain " ++ String.intercalate "," HEADER ++ " columns"))

/-- Check 2: every sample label passes match_legal_pattern.  The map has
no na_action, so a missing sample raises a TypeError.  The surrounding
assert cannot fire, because match_legal_pattern only returns True. -/
def check2 (t : Design) : Except VError Unit := do
  let b ← mapThenAll match_legal_pattern typeErr (t.rows.map Row.sample)
  if b then pure () else .error (.assertFail "")

/-- Check 3: group labels are all missing or all present. -/
def check3 (t : Design) : Except VError Unit :=
  if (t.rows.map Row.group).all Option.isNone ||
     (t.rows.map Row.group).all Option.isSome then .ok ()
  else .error (.assertFail "Group labels missing in some samples but not others!")

/-- Check 4: every non-missing group label passes match_legal_pattern
(na_action="ignore" skips missing values). -/
def check4 (t : Design) : Except VError Unit := do
  let b ← mapIgnoreNaThenAll match_legal_pattern (t.rows.map Row.group)
  if b then pure () else .error (.assertFail "")

/-- Check 5: assert design["read_1"].all().  Series.all skips missing
values and a string is truthy iff nonempty, so only an empty-string
read_1 can fail this assert; a missing read_1 passes it. -/
def check5 (t : Design) : Except VError Unit :=
  if (t.rows.map Row.read_1).all (fun v =>
       match v with
       | none => true
       | some s => s != "") then .ok ()
  else .error (.assertFail "Read 1 path cannot be missing!")

/-- Check 6: every read_1 path has a FASTQ suffix.  The map has no
na_action, so a missing read_1 raises an AttributeError inside
check_fastq_suffix. -/
def check6 (t : Design) : Except VError Unit := do
  let b ← mapThenAll check_fastq_suffix attrErr (t.rows.map Row.read_1)
  if b then pure () else .error (.assertFail "")

/-- Check 7: every non-missing read_2 path has a FASTQ suffix. -/
def check7 (t : Design) : Except VError Unit := do
  let b ← mapIgnoreNaThenAll check_fastq_suffix (t.rows.map Row.read_2)
  if b then pure () else .error (.assertFail "")

/-- Check 8: no duplicated read_1 values. -/
def check8 (t : Design) : Except VError Unit :=
  if hasDuplicates (t.rows.map Row.read_1) then
    .error (.assertFail "There are duplications within Read 1 paths!")
  else .ok ()

/-- Check 9: no duplicated read_2 values after dropna. -/
def check9 (t : Design) : Except VError Unit :=
  if hasDuplicates ((t.rows.map Row.read_2).filterMap id) then
    .error (.assertFail "There are duplications within Read 2 paths!")
  else .ok ()

/-- Check 10: for every sample group, the group labels have a single
unique value; otherwise print_error with the comma-joined failing sample
keys (in sorted key order, as produced by groupby). -/
def check10 (t : Design) : Except VError Unit :=
  let keys := groupKeys (t.rows.map Row.sample)
  let bad := keys.filter (fun k => !groupLabelConsistent (groupOf t.rows k))
  if bad.isEmpty then .ok ()
  else .error (.printError
    "Group labels for samples not consistent across different runs"
    "Samples" (String.intercalate "," bad))

/-- Check 11: no sample group mixes single-end and paired-end rows;
otherwise print_error with the comma-joined failing sample keys. -/
def check11 (t : Design) : Except VError Unit :=
  let keys := groupKeys (t.rows.map Row.sample)
  let bad := keys.filter (fun k => !check_all_se_or_all_pe (groupOf t.rows k))
  if bad.isEmpty then .ok ()
  else .error (.printError
    "Single-end and paired-end data cannot be mixed for the same sample"
    "Samples" (String.intercalate "," bad))

/-- The sample values flagged as duplicated, in row order, as printed by
check 12 (the values are non-missing whenever this code is reachable). -/
def duplicatedSampleVals (t : Design) : List String :=
  (((t.rows.map Row.sample).zip (dupFlags [] (t.rows.map Row.sample))).filterMap
    (fun p => if p.2 then p.1 else none))

/-- Check 12: when some sample value is duplicated, a run_accession
column must exist.  Note the source typo run_accesssion in the message.
This check and the two after it sit inside the duplicated-samples branch
of the source and do nothing when no sample value repeats. -/
def check12 (t : Design) : Except VError Unit :=
  if hasDupSamples t then
    if "run_accession" ∈ t.cols then .ok ()
    else .error (.printError
      "run_accesssion column must exist when there are duplicated sample labels"
      "Samples" (String.intercalate "," (duplicatedSampleVals t)))
  else .ok ()

/-- Check 13: inside the duplicated-samples branch, every non-missing
run_accession value passes match_legal_pattern. -/
def check13 (t : Design) : Except VError Unit :=
  if hasDupSamples t then do
    let b ← mapIgnoreNaThenAll match_legal_pattern (t.rows.map Row.run_accession)
    if b then pure () else .error (.assertFail "")
  else .ok ()

/-- The iterrows loop of check 14 over the sorted sample keys: the first
group with more than one row whose row count differs from its nunique of
run_accession aborts with print_error naming the sample. -/
def check14iter (t : Design) : List String → Except VError Unit
  | [] => .ok ()
  | k :: ks =>
      let g := groupOf t.rows k
      if 1 < g.length ∧ g.length ≠ accNunique g then
        .error (.printError
          "run_accession missing or not unique for the same sample" "Sample" k)
      else check14iter t ks

/-- Check 14: inside the duplicated-samples branch, per-sample
run_accession uniqueness via groupby size and nunique. -/
def check14 (t : Design) : Except VError Unit :=
  if hasDupSamples t then check14iter t (groupKeys (t.rows.map Row.sample))
  else .ok ()

/-- Whether a validation outcome is the check-14 abort, which names the
offending sample in its context line. -/
def isRunAccUniqueErr : Except VError Unit → Bool
  | .error (.printError m c _) =>
      m == "run_accession missing or not unique for the same sample" && c == "Sample"
  | _ => false

/-- The validation prefix of check_samplesheet before check 14, in source
order. -/
def checksBefore14 (t : Design) : Except VError Unit := do
  check1 t
  check2 t
  check3 t
  check4 t
  check5 t
  check6 t
  check7 t
  check8 t
  check9 t
  check10 t
  check11 t
  check12 t
  check13 t

/-- The full validation phase of check_samplesheet: the fourteen checks
in source order, fail-fast. -/
def validate (t : Design) : Except VError Unit := do
  checksBefore14 t
  check14 t

/-- The k-th check, 1-based, as an indexable view of the same fourteen
checks (positions outside 1..14 do nothing). -/
def checkAt : Nat → Design → Except VError Unit
  | 1, t => check1 t
  | 2, t => check2 t
  | 3, t => check3 t
  | 4, t => check4 t
  | 5, t => check5 t
  | 6, t => check6 t
  | 7, t => check7 t
  | 8, t => check8 t
  | 9, t => check9 t
  | 10, t => check10 t
  | 11, t => check11 t
  | 12, t => check12 t
  | 13, t => check13 t
  | 14, t => check14 t
  | _, _ => .ok ()

/-- One row of the main output table after the transform steps. -/
structure OutRow where
  sample : Option String
  fastq_1 : Option String
  fastq_2 : Option String
  run_accession : Option String
  instrument_platform : Option String
  single_end : Bool
  fasta : String
deriving DecidableEq

/-- The column rename applied by the transformer. -/
def renameCol (c : String) : String :=
  if c = "read_1" then "fastq_1" else if c = "read_2" then "fastq_2" else c

/-- Column names of the main output table: run_accession,
instrument_platform, single_end and fasta are appended when absent
(single_end and fasta are overwritten in place when present), then
read_1 and read_2 are renamed and group is dropped. -/
def outputCols (cols : List String) : List String :=
  let c1 := if "run_accession" ∈ cols then cols else cols ++ ["run_accession"]
  let c2 := if "instrument_platform" ∈ c1 then c1 else c1 ++ ["instrument_platform"]
  let c3 := if "single_end" ∈ c2 then c2 else c2 ++ ["single_end"]
  let c4 := if "fasta" ∈ c3 then c3 else c3 ++ ["fasta"]
  (c4.map renameCol).filter (fun c => c != "group")

/-- The transform of one row: run_accession becomes the empty string for
every row when the column was absent, instrument_platform becomes
ILLUMINA when absent, single_end is read_2.isna(), fasta is the empty
string, and read_1 and read_2 are renamed. -/
def outRowOf (t : Design) (r : Row) : OutRow :=
  { sample := r.sample
    fastq_1 := r.read_1
    fastq_2 := r.read_2
    run_accession := if "run_accession" ∈ t.cols then r.run_accession else some ""
    instrument_platform :=
      if "instrument_platform" ∈ t.cols then r.instrument_platform else some "ILLUMINA"
    single_end := r.read_2.isNone
    fasta := "" }

/-- The two output tables: the main table (written to FILE_OUT) and the
metadata table (written to group_metadata.csv, columns sampleid and
group). -/
structure TransResult where
  mainCols : List String
  mainRows : List OutRow
  metaRows : List (Option String × Option String)
deriving DecidableEq

/-- The transform phase of check_samplesheet, applied to a validated
table. -/
def transform (t : Design) : TransResult :=
  { mainCols := outputCols t.cols
    mainRows := t.rows.map (outRowOf t)
    metaRows := t.rows.map (fun r => (r.sample, r.group)) }

/-- check_samplesheet on an in-memory table: validation, then transform;
the output tables exist only when every check passed. -/
def check_samplesheet (t : Design) : Except VError TransResult := do
  validate t
  pure (transform t)

/-- The column set of the main output file named by the spec. -/
def outputHeader : List String :=
  ["sample", "fastq_1", "fastq_2", "run_accession", "instrument_platform",
   "single_end", "fasta"]

/-- The input columns the spec names as read or transformed. -/
def allowedInputCols : List String :=
  ["sample", "read_1", "read_2", "group", "run_accession", "instrument_platform"]

/-! Definitions following the wording of the spec, for the claims that
compare the specified behavior with the implemented one.  They use the
reserved-entry semantics the spec describes in its interface section:
non-anchored entries match as prefixes, the dollar-anchored entries as
suffixes, and short_summary_ as a prefix. -/

/-- Following the spec wording: a reserved entry hits the label, with
the non-anchored entries matched as prefixes, the ends-with entries as
suffixes, and short_summary_ as a prefix. -/
def specReservedHit (v : String) : Bool :=
  (["_tophat", "ReadsPerGene", "_star_aligned", "_fastqc", "_counts", "Aligned",
    "_slamdunk", "_bismark", "_SummaryStatistics", "_duprate", "_vep", "ccs",
    "_NanoStats"].any (fun p => p.data.isPrefixOf v.data)) ||
  (["_trimmed", "_val", "_mqc", "_summary", "_matrix", "_", "_R1", "_R2"].any
    (fun p => p.data.isSuffixOf v.data)) ||
  ("short_summary_".data.isPrefixOf v.data)

/-- Following the spec wording: a legal label matches the naming pattern
and no reserved entry hits it. -/
def specLegalLabel (v : String) : Bool :=
  matchesLegalPattern v && !specReservedHit v

/-- Spec data-model invariant: the four required columns are present. -/
def specColsOk (t : Design) : Bool :=
  HEADER.all (fun c => decide (c ∈ t.cols))

/-- Spec data-model invariant: every sample value is present and legal. -/
def specSamplesOk (t : Design) : Bool :=
  t.rows.all (fun r =>
    match r.sample with
    | some v => specLegalLabel v
    | none => false)

/-- Spec data-model invariant: group values are all absent or all
present. -/
def specGroupPresenceOk (t : Design) : Bool :=
  (t.rows.map Row.group).all Option.isNone ||
  (t.rows.map Row.group).all Option.isSome

/-- Spec data-model invariant: every present group value is legal. -/
def specGroupsLegal (t : Design) : Bool :=
  t.rows.all (fun r =>
    match r.group with
    | some v => specLegalLabel v
    | none => true)

/-- Spec data-model invariant: read_1 is never null or empty. -/
def specRead1Ok (t : Design) : Bool :=
  t.rows.all (fun r =>
    match r.read_1 with
    | some s => s != ""
    | none => false)

/-- Spec data-model invariant: read_1 and any present read_2 end in a
FASTQ extension. -/
def specSuffixOk (t : Design) : Bool :=
  t.rows.all (fun r =>
    (match r.read_1 with
     | some s => hasFqSuffix s
     | none => false) &&
    (match r.read_2 with
     | some s => hasFqSuffix s
     | none => true))

/-- Spec data-model invariant: no two rows share a read_1 value. -/
def specRead1Nodup (t : Design) : Bool :=
  decide ((t.rows.map Row.read_1).Nodup)

/-- Spec data-model invariant: no two rows share a read_2 value,
ignoring nulls. -/
def specRead2Nodup (t : Design) : Bool :=
  decide (((t.rows.map Row.read_2).filterMap id).Nodup)

/-- Spec data-model invariant: rows with the same sample have the same
group value. -/
def specGroupConsistency (t : Design) : Bool :=
  t.rows.all (fun a =>
    t.rows.all (fun b => a.sample != b.sample || a.group == b.group))

/-- Spec data-model invariant: rows with the same sample are uniformly
single-ended or uniformly paired-ended. -/
def specSePeConsistency (t : Design) : Bool :=
  t.rows.all (fun a =>
    t.rows.all (fun b => a.sample != b.sample || a.read_2.isSome == b.read_2.isSome))

/-- Following the spec wording: some sample value repeats across rows,
that is, the sample values are not pairwise distinct. -/
def specAnySampleRepeats (t : Design) : Bool :=
  decide (¬ (t.rows.map Row.sample).Nodup)

/-- Spec data-model invariant: when a sample value repeats, the
run_accession column exists and, for every sample group with more than
one row, its run_accession values are present, legal and distinct. -/
def specDupRunAccOk (t : Design) : Bool :=
  !specAnySampleRepeats t ||
  (decide ("run_accession" ∈ t.cols) &&
   (groupKeys (t.rows.map Row.sample)).all (fun k =>
      let g := groupOf t.rows k
      decide (g.length ≤ 1) ||
      (g.all (fun r =>
         match r.run_accession with
         | some v => specLegalLabel v
         | none => false) &&
       decide (((g.map Row.run_accession).filterMap id).Nodup))))

/-- The conjunction of the data-model invariants of the spec. -/
def specInvariants (t : Design) : Bool :=
  specColsOk t && specSamplesOk t && specGroupPresenceOk t && specGroupsLegal t &&
  specRead1Ok t && specSuffixOk t && specRead1Nodup t && specRead2Nodup t &&
  specGroupConsistency t && specSePeConsistency t && specDupRunAccOk t

/-! Concrete tables used to settle the claims on explicit inputs. -/

/-- A single-row table whose sample label is foo_R1. -/
def tFoo : Design :=
  { cols := ["sample", "read_1", "read_2", "group"],
    rows := [{ sample := some "foo_R1", read_1 := some "a.fastq.gz",
               read_2 := none, group := none }] }

/-- A single-row table whose read_1 is missing. -/
def tNullRead1 : Design :=
  { cols := ["sample", "read_1", "read_2", "group"],
    rows := [{ sample := some "s1", read_1 := none, read_2 := none, group := none }] }

/-- A table with a missing read_1 in one row and a wrong read_1
extension in another: two violated rules of the specified list. -/
def tC5order : Design :=
  { cols := ["sample", "read_1", "read_2", "group"],
    rows := [{ sample := some "s1", read_1 := none, read_2 := none, group := none },
             { sample := some "s2", read_1 := some "x.txt", read_2 := none,
               group := none }] }

/-- A table without the required group column. -/
def tNoGroupCol : Design :=
  { cols := ["sample", "read_1", "read_2"], rows := [] }

/-- A table with no duplicated sample but an illegal run_accession
value. -/
def tIllAccNoDup : Design :=
  { cols := ["sample", "read_1", "read_2", "group", "run_accession"],
    rows := [{ sample := some "s1", read_1 := some "a.fastq.gz", read_2 := none,
               group := none, run_accession := some "Aligned_x" }] }

/-- A well-formed table with an extra passthrough column named notes. -/
def tExtra : Design :=
  { cols := ["sample", "read_1", "read_2", "group", "notes"],
    rows := [{ sample := some "s1", read_1 := some "a.fastq.gz", read_2 := none,
               group := some "g1" }] }

/-- A table satisfying the data-model invariants of the spec in which a
single-occurrence sample carries an illegal run_accession value while
another sample is duplicated. -/
def tDupIll : Design :=
  { cols := ["sample", "read_1", "read_2", "group", "run_accession"],
    rows := [{ sample := some "s1", read_1 := some "a.fastq.gz", read_2 := none,
               group := none, run_accession := some "r1" },
             { sample := some "s1", read_1 := some "b.fastq.gz", read_2 := none,
               group := none, run_accession := some "r2" },
             { sample := some "s2", read_1 := some "c.fastq.gz", read_2 := none,
               group := none, run_accession := some "Aligned_x" }] }

/-- A duplicated sample with identical run_accession values. -/
def tDupSame : Design :=
  { cols := ["sample", "read_1", "read_2", "group", "run_accession"],
    rows := [{ sample := some "s1", read_1 := some "a.fastq.gz", read_2 := none,
               group := none, run_accession := some "r1" },
             { sample := some "s1", read_1 := some "b.fastq.gz", read_2 := none,
               group := none, run_accession := some "r1" }] }

/-- A duplicated sample with distinct legal run_accession values. -/
def tDupGood : Design :=
  { cols := ["sample", "read_1", "read_2", "group", "run_accession"],
    rows := [{ sample := some "s1", read_1 := some "a.fastq.gz", read_2 := none,
               group := none, run_accession := some "r1" },
             { sample := some "s1", read_1 := some "b.fastq.gz", read_2 := none,
               group := none, run_accession := some "r2" }] }

/-- The end-to-end example table of the spec: one paired-end and one
single-end row sharing a group. -/
def tE2E : Design :=
  { cols := ["sample", "read_1", "read_2", "group"],
    rows := [{ sample := some "s1", read_1 := some "a_R1.fastq.gz",
               read_2 := some "a_R2.fastq.gz", group := some "g1" },
             { sample := some "s2", read_1 := some "b_R1.fastq.gz",
               read_2 := none, group := some "g1" }] }

/-- A table whose sample label fails the naming pattern at check 2. -/
def tBadLabel : Design :=
  { cols := ["sample", "read_1", "read_2", "group"],
    rows := [{ sample := some "1abc", read_1 := some "x.txt", read_2 := none,
               group := none }] }

/-! Support lemmas about the embedding. -/

@[simp]
theorem ok_bind {α β : Type} (a : α) (f : α → Except VError β) :
    (Except.ok a >>= f) = f a := rfl

@[simp]
theorem error_bind {α β : Type} (e : VError) (f : α → Except VError β) :
    ((Except.error e : Except VError α) >>= f) = Except.error e := rfl

theorem match_legal_pattern_ok (v : String) (b : Bool)
    (h : match_legal_pattern v = .ok b) : b = true := by
  unfold match_legal_pattern at h
  split at h
  · exact absurd h (by simp)
  · split at h
    · exact absurd h (by simp)
    · exact (Except.ok.inj h).symm

theorem labelAccepted_iff (v : String) :
    labelAccepted v = true ↔ match_legal_pattern v = .ok true := by
  unfold labelAccepted
  cases h : match_legal_pattern v with
  | ok b =>
      have hb := match_legal_pattern_ok v b h
      subst hb
      simp
  | error e => simp

theorem mapThenAll_ok_of (f : String → Except VError Bool) (exc : VError)
    (vals : List (Option String))
    (h : ∀ v ∈ vals, ∃ s, v = some s ∧ f s = .ok true) :
    mapThenAll f exc vals = .ok true := by
  induction vals with
  | nil => rfl
  | cons v rest ih =>
      obtain ⟨s, hv, hf⟩ := h v (by simp)
      subst hv
      have hrest := ih (fun u hu => h u (List.mem_cons_of_mem _ hu))
      simp [mapThenAll, hf, hrest]

theorem mapIgnoreNa_ok_of (f : String → Except VError Bool)
    (vals : List (Option String))
    (h : ∀ s, some s ∈ vals → f s = .ok true) :
    mapIgnoreNaThenAll f vals = .ok true := by
  induction vals with
  | nil => rfl
  | cons v rest ih =>
      have hrest := ih (fun u hu => h u (List.mem_cons_of_mem _ hu))
      cases v with
      | none => simpa [mapIgnoreNaThenAll] using hrest
      | some s =>
          have hf := h s (by simp)
          simp [mapIgnoreNaThenAll, hf, hrest]

theorem mapIgnoreNa_mlp_accepts (vals : List (Option String))
    (h : mapIgnoreNaThenAll match_legal_pattern vals = .ok true) :
    ∀ s, some s ∈ vals → labelAccepted s = true := by
  induction vals with
  | nil => simp
  | cons v rest ih =>
      cases v with
      | none =>
          intro s hs
          rcases List.mem_cons.mp hs with hh | hh
          · exact absurd hh (by simp)
          · exact ih (by simpa [mapIgnoreNaThenAll] using h) s hh
      | some u =>
          cases hu : match_legal_pattern u with
          | error e => simp [mapIgnoreNaThenAll, hu] at h
          | ok b =>
              have hb := match_legal_pattern_ok u b hu
              subst hb
              cases hrec : mapIgnoreNaThenAll match_legal_pattern rest with
              | error e => simp [mapIgnoreNaThenAll, hu, hrec] at h
              | ok r =>
                  have hr : r = true := by
                    have := h
                    simp [mapIgnoreNaThenAll, hu, hrec] at this
                    simpa using this
                  subst hr
                  intro s hs
                  rcases List.mem_cons.mp hs with hh | hh
                  · have : s = u := by simpa using hh
                    subst this
                    simp [labelAccepted_iff, hu]
                  · exact ih hrec s hh

theorem dupFlags_none_iff [DecidableEq α] (seen : List α) (l : List α) :
    (dupFlags seen l).any id = false ↔ l.Nodup ∧ ∀ v ∈ l, v ∉ seen := by
  induction l generalizing seen with
  | nil => simp [dupFlags]
  | cons v rest ih =>
      simp only [dupFlags, List.any_cons, Bool.or_eq_false_iff, id_eq,
        decide_eq_false_iff_not, List.nodup_cons, List.mem_cons]
      rw [ih (v :: seen)]
      constructor
      · rintro ⟨hv, hnd, hrest⟩
        refine ⟨⟨fun hmem => (hrest v hmem) (by simp), hnd⟩, ?_⟩
        rintro u (rfl | hu)
        · exact hv
        · exact fun hum => (hrest u hu) (List.mem_cons_of_mem _ hum)
      · rintro ⟨⟨hvr, hnd⟩, hns⟩
        refine ⟨hns v (Or.inl rfl), hnd, ?_⟩
        intro u hu hu2
        rcases List.mem_cons.mp hu2 with rfl | hu3
        · exact hvr hu
        · exact hns u (Or.inr hu) hu3

theorem hasDuplicates_eq_false_iff [DecidableEq α] (l : List α) :
    hasDuplicates l = false ↔ l.Nodup := by
  unfold hasDuplicates
  rw [dupFlags_none_iff]
  simp

theorem hasDuplicates_eq_true_iff [DecidableEq α] (l : List α) :
    hasDuplicates l = true ↔ ¬ l.Nodup := by
  rw [← hasDuplicates_eq_false_iff]
  cases hasDuplicates l <;> simp

theorem mem_dedupAux [DecidableEq α] (seen : List α) (l : List α) (a : α) :
    a ∈ dedupAux seen l ↔ a ∈ l ∧ a ∉ seen := by
  induction l generalizing seen with
  | nil => simp [dedupAux]
  | cons v rest ih =>
      by_cases hv : v ∈ seen
      · rw [dedupAux, if_pos hv, ih seen]
        simp only [List.mem_cons]
        constructor
        · rintro ⟨h1, h2⟩
          exact ⟨Or.inr h1, h2⟩
        · rintro ⟨rfl | h1, h2⟩
          · exact absurd hv h2
          · exact ⟨h1, h2⟩
      · rw [dedupAux, if_neg hv]
        simp only [List.mem_cons, ih (v :: seen), not_or]
        constructor
        · rintro (rfl | ⟨h1, h2, h3⟩)
          · exact ⟨Or.inl rfl, hv⟩
          · exact ⟨Or.inr h1, h3⟩
        · rintro ⟨rfl | h1, h2⟩
          · exact Or.inl rfl
          · by_cases hav : a = v
            · exact Or.inl hav
            · exact Or.inr ⟨h1, hav, h2⟩

theorem mem_dedupList [DecidableEq α] (l : List α) (a : α) :
    a ∈ dedupList l ↔ a ∈ l := by
  unfold dedupList
  rw [mem_dedupAux]
  simp

theorem dedupAux_nil_of [DecidableEq α] (seen : List α) (l : List α)
    (h : ∀ a ∈ l, a ∈ seen) : dedupAux seen l = [] := by
  induction l with
  | nil => rfl
  | cons v rest ih =>
      rw [dedupAux, if_pos (h v (by simp))]
      exact ih (fun a ha => h a (List.mem_cons_of_mem _ ha))

theorem dedupList_singleton_of [DecidableEq α] (v : α) (l : List α)
    (h : ∀ a ∈ l, a = v) : dedupList (v :: l) = [v] := by
  unfold dedupList
  rw [dedupAux, if_neg (List.not_mem_nil v)]
  rw [dedupAux_nil_of (v :: []) l (fun a ha => by simp [h a ha])]

theorem dedupList_eq_singleton [DecidableEq α] (v0 : α) (l : List α)
    (hne : l ≠ []) (h : ∀ a ∈ l, a = v0) : dedupList l = [v0] := by
  cases l with
  | nil => exact absurd rfl hne
  | cons b bs =>
      have hb : b = v0 := h b (by simp)
      subst hb
      exact dedupList_singleton_of b bs (fun a ha => h a (List.mem_cons_of_mem _ ha))

theorem dedupAux_eq_self_of [DecidableEq α] (seen : List α) (l : List α)
    (hnd : l.Nodup) (hdis : ∀ a ∈ l, a ∉ seen) : dedupAux seen l = l := by
  induction l generalizing seen with
  | nil => rfl
  | cons v rest ih =>
      rw [dedupAux, if_neg (hdis v (by simp))]
      rcases List.nodup_cons.mp hnd with ⟨hv, hnd2⟩
      rw [ih (v :: seen) hnd2]
      intro a ha
      simp only [List.mem_cons, not_or]
      exact ⟨fun hav => hv (hav ▸ ha), hdis a (List.mem_cons_of_mem _ ha)⟩

theorem dedupList_eq_self_of_nodup [DecidableEq α] (l : List α)
    (hnd : l.Nodup) : dedupList l = l :=
  dedupAux_eq_self_of [] l hnd (by simp)

theorem mem_insertSorted (s a : String) (l : List String) :
    a ∈ insertSorted s l ↔ a = s ∨ a ∈ l := by
  induction l with
  | nil => simp [insertSorted]
  | cons t rest ih =>
      rw [insertSorted]
      split
      · simp
      · simp only [List.mem_cons, ih]
        tauto

theorem mem_sortStrings (l : List String) (a : String) :
    a ∈ sortStrings l ↔ a ∈ l := by
  induction l with
  | nil => simp [sortStrings]
  | cons s rest ih =>
      unfold sortStrings at ih ⊢
      simp only [List.foldr_cons, mem_insertSorted, ih, List.mem_cons]

theorem mem_groupKeys (vals : List (Option String)) (k : String) :
    k ∈ groupKeys vals ↔ some k ∈ vals := by
  unfold groupKeys
  rw [mem_sortStrings, mem_dedupList, List.mem_filterMap]
  constructor
  · rintro ⟨a, ha, hak⟩
    cases a with
    | none => exact absurd hak (by simp)
    | some u =>
        have : u = k := by simpa using hak
        exact this ▸ ha
  · intro h
    exact ⟨some k, h, rfl⟩

theorem groupOf_sample (rows : List Row) (k : String) :
    ∀ r ∈ groupOf rows k, r.sample = some k := by
  intro r hr
  have := List.mem_filter.mp hr
  simpa using this.2

theorem groupOf_sub (rows : List Row) (k : String) :
    ∀ r ∈ groupOf rows k, r ∈ rows := fun _ hr => (List.mem_filter.mp hr).1

theorem groupOf_ne_nil (rows : List Row) (k : String)
    (h : some k ∈ rows.map Row.sample) : groupOf rows k ≠ [] := by
  rcases List.mem_map.mp h with ⟨r, hr, hrk⟩
  have : r ∈ groupOf rows k := List.mem_filter.mpr ⟨hr, by simpa using hrk⟩
  exact List.ne_nil_of_mem this

theorem isPrefixOf_append_self (l r : List Char) : l.isPrefixOf (l ++ r) = true :=
  List.isPrefixOf_iff_prefix.mpr (List.prefix_append l r)

theorem isPrefixOf_refl_char (l : List Char) : l.isPrefixOf l = true :=
  List.isPrefixOf_iff_prefix.mpr (List.prefix_refl l)

theorem isSuffixOf_refl_char (l : List Char) : l.isSuffixOf l = true :=
  List.isSuffixOf_iff_suffix.mpr (List.suffix_refl l)

theorem legal_no_underscore_head (label : String) (rest : List Char)
    (hleg : matchesLegalPattern label = true)
    (h : ('_' :: rest).isPrefixOf label.data = true) : False := by
  cases hd : label.data with
  | nil => rw [hd] at h; simp [List.isPrefixOf] at h
  | cons c cs =>
      rw [hd] at h
      simp only [List.isPrefixOf, Bool.and_eq_true, beq_iff_eq] at h
      rcases h with ⟨hc, _⟩
      have hf : matchesLegalPattern label = false := by
        unfold matchesLegalPattern
        rw [hd, ← hc]
        rfl
      rw [hf] at hleg
      exact Bool.noConfusion hleg

theorem seriesCount_eq_zero (vals : List (Option String))
    (h : ∀ v ∈ vals, v = none) : seriesCount vals = 0 := by
  unfold seriesCount
  rw [List.filterMap_eq_nil_iff.mpr (fun a ha => by simpa using h a ha)]
  rfl

theorem seriesCount_eq_length (vals : List (Option String))
    (h : ∀ v ∈ vals, v.isSome = true) : seriesCount vals = vals.length := by
  induction vals with
  | nil => rfl
  | cons v rest ih =>
      have hrest := ih (fun u hu => h u (List.mem_cons_of_mem _ hu))
      cases v with
      | none => exact absurd (h none (by simp)) (by simp)
      | some s =>
          unfold seriesCount at hrest ⊢
          rw [show List.filterMap id (some s :: rest) = s :: List.filterMap id rest
                from rfl]
          rw [List.length_cons, List.length_cons, hrest]

theorem anySampleRepeats_iff (t : Design) :
    specAnySampleRepeats t = true ↔ ¬ (t.rows.map Row.sample).Nodup := by
  simp [specAnySampleRepeats]

theorem check14iter_ok_of (t : Design) (ks : List String)
    (h : ∀ k ∈ ks, ¬(1 < (groupOf t.rows k).length ∧
      (groupOf t.rows k).length ≠ accNunique (groupOf t.rows k))) :
    check14iter t ks = .ok () := by
  induction ks with
  | nil => rfl
  | cons k rest ih =>
      rw [check14iter]
      split
      · exact absurd (by assumption) (h k (by simp))
      · exact ih (fun u hu => h u (List.mem_cons_of_mem _ hu))

theorem check14iter_err_iff (t : Design) (ks : List String) :
    isRunAccUniqueErr (check14iter t ks) = true ↔
      ∃ k ∈ ks, 1 < (groupOf t.rows k).length ∧
        (groupOf t.rows k).length ≠ accNunique (groupOf t.rows k) := by
  induction ks with
  | nil => simp [check14iter, isRunAccUniqueErr]
  | cons k rest ih =>
      rw [check14iter]
      split
      · rename_i hcond
        simp only [isRunAccUniqueErr]
        constructor
        · intro _
          exact ⟨k, by simp, hcond⟩
        · intro _
          simp
      · rename_i hcond
        rw [ih]
        constructor
        · rintro ⟨u, hu, hc⟩
          exact ⟨u, List.mem_cons_of_mem _ hu, hc⟩
        · rintro ⟨u, hu, hc⟩
          rcases List.mem_cons.mp hu with rfl | hu2
          · exact absurd hc hcond
          · exact ⟨u, hu2, hc⟩

theorem assertMap_ok (m : Except VError Bool) (hm : m = .ok true) :
    ((do
        let b ← m
        if b then pure () else .error (.assertFail "")) : Except VError Unit) =
      .ok () := by
  rw [hm, ok_bind]
  rfl

theorem specLegal_accepted (v : String) (h : specLegalLabel v = true) :
    match_legal_pattern v = .ok true := by
  unfold specLegalLabel at h
  rw [Bool.and_eq_true] at h
  obtain ⟨hpat, hres⟩ := h
  rw [Bool.not_eq_true'] at hres
  unfold match_legal_pattern
  rw [hpat]
  simp only [Bool.not_true, Bool.false_eq_true, if_false]
  cases hfind : illegal_patterns.find? (fun p => p.match v) with
  | none => rfl
  | some p =>
      exfalso
      have hpmem := List.mem_of_find?_eq_some hfind
      have hpmatch := List.find?_some hfind
      have hhit : specReservedHit v = true := by
        simp only [illegal_patterns, List.mem_cons, List.not_mem_nil, or_false]
          at hpmem
        rcases hpmem with rfl | rfl | rfl | rfl | rfl | rfl | rfl | rfl | rfl |
          rfl | rfl | rfl | rfl | rfl | rfl | rfl | rfl | rfl | rfl | rfl | rfl |
          rfl | rfl <;> simp only [Pat.match] at hpmatch
        all_goals first
          | (have hlab := eq_of_beq hpmatch
             subst hlab
             decide)
          | simp [specReservedHit, hpmatch]
      rw [hhit] at hres
      exact Bool.noConfusion hres

theorem mem_outputCols_core (cols extra : List String) (c : String)
    (h4 : ∀ x ∈ HEADER, x ∈ cols)
    (hsub : ∀ x ∈ cols, x ∈ allowedInputCols)
    (hex : ∀ x ∈ extra,
      x ∈ ["run_accession", "instrument_platform", "single_end", "fasta"])
    (hra : "run_accession" ∈ cols ∨ "run_accession" ∈ extra)
    (hip : "instrument_platform" ∈ cols ∨ "instrument_platform" ∈ extra)
    (hse : "single_end" ∈ extra) (hfa : "fasta" ∈ extra) :
    (c ∈ ((cols ++ extra).map renameCol).filter (fun x => x != "group") ↔
      c ∈ outputHeader) := by
  simp only [List.mem_filter, List.mem_map, List.mem_append, bne_iff_ne, ne_eq]
  constructor
  · rintro ⟨⟨a, ha | ha, rfl⟩, hne⟩
    · have hb := hsub a ha
      simp only [allowedInputCols, List.mem_cons, List.not_mem_nil, or_false] at hb
      rcases hb with rfl | rfl | rfl | rfl | rfl | rfl
      · decide
      · decide
      · decide
      · exact absurd (by decide : renameCol "group" = "group") hne
      · decide
      · decide
    · have hb := hex a ha
      simp only [List.mem_cons, List.not_mem_nil, or_false] at hb
      rcases hb with rfl | rfl | rfl | rfl <;> decide
  · intro hc
    simp only [outputHeader, List.mem_cons, List.not_mem_nil, or_false] at hc
    rcases hc with rfl | rfl | rfl | rfl | rfl | rfl | rfl
    · exact ⟨⟨"sample", Or.inl (h4 _ (by decide)), by decide⟩, by decide⟩
    · exact ⟨⟨"read_1", Or.inl (h4 _ (by decide)), by decide⟩, by decide⟩
    · exact ⟨⟨"read_2", Or.inl (h4 _ (by decide)), by decide⟩, by decide⟩
    · rcases hra with h | h
      · exact ⟨⟨"run_accession", Or.inl h, by decide⟩, by decide⟩
      · exact ⟨⟨"run_accession", Or.inr h, by decide⟩, by decide⟩
    · rcases hip with h | h
      · exact ⟨⟨"instrument_platform", Or.inl h, by decide⟩, by decide⟩
      · exact ⟨⟨"instrument_platform", Or.inr h, by decide⟩, by decide⟩
    · exact ⟨⟨"single_end", Or.inr hse, by decide⟩, by decide⟩
    · exact ⟨⟨"fasta", Or.inr hfa, by decide⟩, by decide⟩

theorem mem_outputCols (cols : List String)
    (h4 : ∀ x ∈ HEADER, x ∈ cols)
    (hsub : ∀ x ∈ cols, x ∈ allowedInputCols) :
    ∀ c, c ∈ outputCols cols ↔ c ∈ outputHeader := by
  intro c
  have hse : "single_end" ∉ cols := fun h => by
    have := hsub _ h
    simp [allowedInputCols] at this
  have hfa : "fasta" ∉ cols := fun h => by
    have := hsub _ h
    simp [allowedInputCols] at this
  simp only [outputCols]
  by_cases hra : "run_accession" ∈ cols
  · rw [if_pos hra]
    by_cases hip : "instrument_platform" ∈ cols
    · rw [if_pos hip, if_neg hse,
        if_neg (show "fasta" ∉ cols ++ ["single_end"] by simp [hfa])]
      simp only [List.append_assoc]
      exact mem_outputCols_core cols (["single_end"] ++ ["fasta"]) c h4 hsub
        (by decide) (Or.inl hra) (Or.inl hip) (by decide) (by decide)
    · rw [if_neg hip,
        if_neg (show "single_end" ∉ cols ++ ["instrument_platform"] by simp [hse]),
        if_neg (show "fasta" ∉ cols ++ ["instrument_platform"] ++ ["single_end"] by
          simp [hfa])]
      simp only [List.append_assoc]
      exact mem_outputCols_core cols
        (["instrument_platform"] ++ (["single_end"] ++ ["fasta"])) c h4 hsub
        (by decide) (Or.inl hra) (Or.inr (by decide)) (by decide) (by decide)
  · rw [if_neg hra]
    by_cases hip : "instrument_platform" ∈ cols
    · rw [if_pos (show "instrument_platform" ∈ cols ++ ["run_accession"] by
          simp [hip]),
        if_neg (show "single_end" ∉ cols ++ ["run_accession"] by simp [hse]),
        if_neg (show "fasta" ∉ cols ++ ["run_accession"] ++ ["single_end"] by
          simp [hfa])]
      simp only [List.append_assoc]
      exact mem_outputCols_core cols
        (["run_accession"] ++ (["single_end"] ++ ["fasta"])) c h4 hsub
        (by decide) (Or.inr (by decide)) (Or.inl hip) (by decide) (by decide)
    · rw [if_neg (show "instrument_platform" ∉ cols ++ ["run_accession"] by
          simp [hip]),
        if_neg (show "single_end" ∉ cols ++ ["run_accession"] ++
          ["instrument_platform"] by simp [hse]),
        if_neg (show "fasta" ∉ cols ++ ["run_accession"] ++
          ["instrument_platform"] ++ ["single_end"] by simp [hfa])]
      simp only [List.append_assoc]
      exact mem_outputCols_core cols
        (["run_accession"] ++ (["instrument_platform"] ++
          (["single_end"] ++ ["fasta"]))) c h4 hsub
        (by decide) (Or.inr (by decide)) (Or.inr (by decide)) (by decide)
        (by decide)

/-! Theorems settling the claims against the embedding. -/

/-- Claim C2: the code accepts the sample label foo_R1 and a table using
it.  The dollar-anchored reserved entries are tested with re.match,
which anchors at the start of the label, so the ends-with entry _R1
never fires on foo_R1 and the table validates, while the spec expects a
reserved-string failure. -/
theorem fooR1_accepted_by_code :
    match_legal_pattern "foo_R1" = Except.ok true ∧ validate tFoo = Except.ok () := by
  constructor <;> rfl

/-- Claim C3: a table with a missing read_1 passes check 5 (Series.all
skips missing values, so the assert carrying the message about a missing
Read 1 path cannot fire on a missing value) and validation instead
aborts at check 6 with an AttributeError. -/
theorem nullRead1_not_caught_by_check5 :
    check5 tNullRead1 = Except.ok () ∧ validate tNullRead1 = Except.error attrErr := by
  constructor <;> rfl

/-- Claim C4, counterexample: a table missing a required column fails
check 1 through a bare assert, which prints no prefixed diagnostic to
standard output, against the claim that every one of the fourteen checks
prints one. -/
theorem missingColumn_no_prefixed_diagnostic :
    validate tNoGroupCol =
      Except.error (.assertFail
        "Design file must contain sample,read_1,read_2,group columns") ∧
    VError.stdoutput (.assertFail
        "Design file must contain sample,read_1,read_2,group columns") = none := by
  constructor <;> rfl

/-- Claim C5, counterexample: a table violating the specified rule 5 (a
missing read_1) together with the specified rule 6 (a wrong read_1
extension on another row) does not report the earliest specified check:
it aborts with an AttributeError from check 6 instead of the check-5
message. -/
theorem earliest_spec_check_not_reported :
    (∃ r ∈ tC5order.rows, r.read_1 = none) ∧
    validate tC5order = Except.error attrErr ∧
    attrErr ≠ VError.assertFail "Read 1 path cannot be missing!" := by
  exact ⟨by decide, rfl, by decide⟩

/-- Claim C1, counterexample: a table with no duplicated sample and an
illegal non-null run_accession value passes validation, because the
run_accession legality check sits inside the duplicated-samples branch;
the same value is rejected by the legality check itself. -/
theorem illegal_runacc_without_duplicates_passes :
    validate tIllAccNoDup = Except.ok () ∧
    match_legal_pattern "Aligned_x" =
      Except.error (.printError
        ("Sample/Group label Aligned_x contain string reserved by pipeline or" ++
         " MultiQC. This may cause a problem.")
        "Reserved string" "Aligned") := by
  constructor <;> rfl

/-- Claim C6, counterexample: first, a table satisfying every data-model
invariant of the spec but carrying an extra passthrough column validates
and keeps that column in the main output, so the output column set is
not exactly the seven named columns; second, a table satisfying every
data-model invariant of the spec fails validation, because check 13 also
scans the run_accession values of single-occurrence samples once any
sample is duplicated. -/
theorem invariants_insufficient_for_claimed_output :
    (validate tExtra = Except.ok () ∧ specInvariants tExtra = true ∧
     "notes" ∈ (transform tExtra).mainCols ∧ "notes" ∉ outputHeader) ∧
    (specInvariants tDupIll = true ∧
     validate tDupIll = Except.error (.printError
        ("Sample/Group label Aligned_x contain string reserved by pipeline or" ++
         " MultiQC. This may cause a problem.")
        "Reserved string" "Aligned")) := by
  exact ⟨⟨rfl, by decide, by decide, by decide⟩, ⟨by decide, rfl⟩⟩

/-- Claim C8: the output tables exist only after validation: a failing
check propagates its error through check_samplesheet and no transform
result is produced, and a produced result implies that every check
passed.  In the source both writes are sequenced after the last check. -/
theorem no_output_on_failure (t : Design) :
    (∀ e, validate t = .error e → check_samplesheet t = .error e) ∧
    (∀ out, check_samplesheet t = .ok out → validate t = .ok ()) := by
  constructor
  · intro e he
    simp [check_samplesheet, he]
  · intro out hout
    cases hv : validate t with
    | ok u => cases u; rfl
    | error e => simp [check_samplesheet, hv] at hout

/-- Claim C8, witness: a failing table yields no transform result, and a
validated table passes every check. -/
theorem no_output_on_failure_witness :
    check_samplesheet tNoGroupCol = Except.error (.assertFail
      "Design file must contain sample,read_1,read_2,group columns") ∧
    validate tE2E = Except.ok () :=
  ⟨(no_output_on_failure tNoGroupCol).1 _ rfl,
   (no_output_on_failure tE2E).2 (transform tE2E) rfl⟩

/-- Claim C9: for a validated table, the single_end value of each output
row is true exactly when that row's read_2 value is missing. -/
theorem single_end_iff_read2_missing (t : Design) (hv : validate t = .ok ())
    (i : Nat) (hm : i < (transform t).mainRows.length) (hr : i < t.rows.length) :
    ((transform t).mainRows.get ⟨i, hm⟩).single_end =
      ((t.rows.get ⟨i, hr⟩).read_2).isNone := by
  simp [transform, List.get_map, outRowOf]

/-- Claim C9, witness: the end-to-end example rows give single_end false
for the paired-end row and true for the single-end row. -/
theorem single_end_iff_read2_missing_witness :
    ((transform tE2E).mainRows.get ⟨0, by decide⟩).single_end = false ∧
    ((transform tE2E).mainRows.get ⟨1, by decide⟩).single_end = true := by
  constructor
  · exact (single_end_iff_read2_missing tE2E rfl 0 (by decide) (by decide)).trans rfl
  · exact (single_end_iff_read2_missing tE2E rfl 1 (by decide) (by decide)).trans rfl

/-- Claim C4, amended: every validation failure halts the process with
exit code 1; anything the failure prints to standard output carries the
ERROR prefix; but the failures raised by the bare asserts (checks 1, 3,
5, 8 and 9) print nothing to standard output at all, so not every check
produces the prefixed diagnostic. -/
theorem failure_exit_and_diagnostic (t : Design) (e : VError)
    (h : validate t = .error e) :
    e.exitCode = 1 ∧
    (∀ s, e.stdoutput = some s →
      "ERROR: Please check samplesheet -> ".data.isPrefixOf s.data = true) ∧
    (∀ m, e = .assertFail m → e.stdoutput = none) := by
  refine ⟨rfl, ?_, ?_⟩
  · intro s hs
    cases e with
    | printError er c cs =>
        simp only [VError.stdoutput, Option.some.injEq] at hs
        subst hs
        split
        · rw [show "ERROR: Please check samplesheet -> " ++ er ++ "\n" ++
                c.trim ++ ": " ++ cs.trim =
              "ERROR: Please check samplesheet -> " ++
                (er ++ "\n" ++ c.trim ++ ": " ++ cs.trim) from by
            simp [String.append_assoc]]
          rw [String.data_append]
          exact isPrefixOf_append_self _ _
        · rw [String.data_append]
          exact isPrefixOf_append_self _ _
    | assertFail m => simp [VError.stdoutput] at hs
    | pyError m => simp [VError.stdoutput] at hs
  · intro m hm
    subst hm
    rfl

/-- Claim C4, witness: instantiation at the table missing a required
column, whose failure is an assert with no prefixed diagnostic. -/
theorem failure_exit_and_diagnostic_witness :
    (VError.assertFail
      "Design file must contain sample,read_1,read_2,group columns").exitCode = 1 ∧
    (VError.assertFail
      "Design file must contain sample,read_1,read_2,group columns").stdoutput =
      none := by
  have h := failure_exit_and_diagnostic tNoGroupCol _ rfl
  exact ⟨h.1, h.2.2 _ rfl⟩

/-- Claim C1, amended: the run_accession checks (12, 13 and 14) do
nothing when no sample value is duplicated; when some sample value is
duplicated, check 13 succeeds exactly when every non-null run_accession
value of the whole table passes the label legality check. -/
theorem runacc_legality_scope (t : Design) :
    (hasDupSamples t = false →
      (do check12 t; check13 t; check14 t : Except VError Unit) = .ok ()) ∧
    (hasDupSamples t = true →
      (check13 t = .ok () ↔
        ∀ v, some v ∈ t.rows.map Row.run_accession → labelAccepted v = true)) := by
  constructor
  · intro h
    simp [check12, check13, check14, h]
  · intro h
    constructor
    · intro hok
      apply mapIgnoreNa_mlp_accepts
      rw [check13, if_pos h] at hok
      cases hm : mapIgnoreNaThenAll match_legal_pattern
          (t.rows.map Row.run_accession) with
      | error e => rw [hm] at hok; simp at hok
      | ok b =>
          cases b
          · rw [hm] at hok; simp at hok
          · rfl
    · intro hall
      have hmap := mapIgnoreNa_ok_of match_legal_pattern _
        (fun s hs => (labelAccepted_iff s).mp (hall s hs))
      simp [check13, h, hmap]
      rfl

/-- Claim C1, witness: the no-duplicates table with an illegal
run_accession skips the checks, and check 13 of the duplicated table
with legal run accessions succeeds through the equivalence. -/
theorem runacc_legality_scope_witness :
    (do check12 tIllAccNoDup; check13 tIllAccNoDup; check14 tIllAccNoDup :
        Except VError Unit) = .ok () ∧
    check13 tDupGood = .ok () :=
  ⟨(runacc_legality_scope tIllAccNoDup).1 rfl,
   ((runacc_legality_scope tDupGood).2 rfl).mpr (fun v hv => by
      simp [tDupGood] at hv
      rcases hv with rfl | rfl <;> decide)⟩

/-- Claim C10: when a label matches the legality pattern, the reserved
scan can only abort because the label starts with ReadsPerGene, Aligned,
ccs or short_summary_: under re.match the entries beginning with an
underscore, bare or dollar-anchored, cannot fire on a label that starts
with a letter. -/
theorem reserved_reachable_entries (label : String) (e : VError)
    (hleg : matchesLegalPattern label = true)
    (herr : match_legal_pattern label = .error e) :
    ("ReadsPerGene".data.isPrefixOf label.data ||
     "Aligned".data.isPrefixOf label.data ||
     "ccs".data.isPrefixOf label.data ||
     "short_summary_".data.isPrefixOf label.data) = true := by
  unfold match_legal_pattern at herr
  rw [hleg] at herr
  simp only [Bool.not_true, Bool.false_eq_true, if_false] at herr
  cases hfind : illegal_patterns.find? (fun p => p.match label) with
  | none => rw [hfind] at herr; exact absurd herr (by simp)
  | some p =>
      have hpmem := List.mem_of_find?_eq_some hfind
      have hpmatch := List.find?_some hfind
      simp only [illegal_patterns, List.mem_cons, List.not_mem_nil, or_false]
        at hpmem
      rcases hpmem with rfl | rfl | rfl | rfl | rfl | rfl | rfl | rfl | rfl | rfl |
        rfl | rfl | rfl | rfl | rfl | rfl | rfl | rfl | rfl | rfl | rfl | rfl | rfl <;>
        simp only [Pat.match] at hpmatch
      all_goals first
        | exact (legal_no_underscore_head label _ hleg hpmatch).elim
        | (have hlab := eq_of_beq hpmatch
           subst hlab
           first
             | exact absurd hleg (by decide)
             | simp [isPrefixOf_refl_char])
        | simp [hpmatch]

/-- Claim C10, witness: the label ccsX matches the pattern, is rejected
by the reserved scan, and indeed starts with ccs. -/
theorem reserved_reachable_entries_witness :
    ("ReadsPerGene".data.isPrefixOf "ccsX".data ||
     "Aligned".data.isPrefixOf "ccsX".data ||
     "ccs".data.isPrefixOf "ccsX".data ||
     "short_summary_".data.isPrefixOf "ccsX".data) = true :=
  reserved_reachable_entries "ccsX"
    (.printError
      ("Sample/Group label ccsX contain string reserved by pipeline or" ++
       " MultiQC. This may cause a problem.")
      "Reserved string" "ccs")
    (by decide) rfl

/-- Claim C7: for a table on which the thirteen earlier checks pass,
with duplicated samples and a run_accession column, validation aborts
with the check-14 diagnostic naming a sample exactly when some sample
group with more than one row has a row count different from its number
of distinct non-null run_accession values (nulls count as missing, so
repeated non-null values or missing values within a multi-row group
fail). -/
theorem runacc_uniqueness_iff (t : Design)
    (h13 : checksBefore14 t = .ok ())
    (hdup : hasDupSamples t = true)
    (hcol : "run_accession" ∈ t.cols) :
    (isRunAccUniqueErr (validate t) = true ↔
      ∃ k ∈ groupKeys (t.rows.map Row.sample),
        1 < (groupOf t.rows k).length ∧
        (groupOf t.rows k).length ≠ accNunique (groupOf t.rows k)) := by
  unfold validate
  rw [h13, ok_bind]
  unfold check14
  rw [if_pos hdup]
  exact check14iter_err_iff t _

/-- Claim C7, witness: the duplicated sample with identical run
accessions satisfies the hypotheses, and its group of size two with one
distinct value makes validation abort with the check-14 diagnostic. -/
theorem runacc_uniqueness_iff_witness :
    isRunAccUniqueErr (validate tDupSame) = true :=
  (runacc_uniqueness_iff tDupSame rfl rfl (by decide)).mpr
    ⟨"s1", by decide, by decide, by decide⟩

/-- Claim C5, amended: validation is fail-fast over the checks as
implemented: if every check before position k passes and check k aborts
with some error, validation reports exactly that error and evaluates no
later check.  The counterexample shows this does not hold for the
checks as specified, since the implemented check 5 lets missing read_1
values through to check 6. -/
theorem first_failing_check_reported (t : Design) (k : Nat) (e : VError)
    (hk1 : 1 ≤ k) (hk14 : k ≤ 14)
    (hprev : ∀ j, 1 ≤ j → j < k → checkAt j t = .ok ())
    (hfail : checkAt k t = .error e) :
    validate t = .error e := by
  interval_cases k
  · have hf : check1 t = .error e := hfail
    simp [validate, checksBefore14, hf]
  · have hf : check2 t = .error e := hfail
    have h1 : check1 t = .ok () := hprev 1 (by omega) (by omega)
    simp [validate, checksBefore14, h1, hf]
  · have hf : check3 t = .error e := hfail
    have h1 : check1 t = .ok () := hprev 1 (by omega) (by omega)
    have h2 : check2 t = .ok () := hprev 2 (by omega) (by omega)
    simp [validate, checksBefore14, h1, h2, hf]
  · have hf : check4 t = .error e := hfail
    have h1 : check1 t = .ok () := hprev 1 (by omega) (by omega)
    have h2 : check2 t = .ok () := hprev 2 (by omega) (by omega)
    have h3 : check3 t = .ok () := hprev 3 (by omega) (by omega)
    simp [validate, checksBefore14, h1, h2, h3, hf]
  · have hf : check5 t = .error e := hfail
    have h1 : check1 t = .ok () := hprev 1 (by omega) (by omega)
    have h2 : check2 t = .ok () := hprev 2 (by omega) (by omega)
    have h3 : check3 t = .ok () := hprev 3 (by omega) (by omega)
    have h4 : check4 t = .ok () := hprev 4 (by omega) (by omega)
    simp [validate, checksBefore14, h1, h2, h3, h4, hf]
  · have hf : check6 t = .error e := hfail
    have h1 : check1 t = .ok () := hprev 1 (by omega) (by omega)
    have h2 : check2 t = .ok () := hprev 2 (by omega) (by omega)
    have h3 : check3 t = .ok () := hprev 3 (by omega) (by omega)
    have h4 : check4 t = .ok () := hprev 4 (by omega) (by omega)
    have h5 : check5 t = .ok () := hprev 5 (by omega) (by omega)
    simp [validate, checksBefore14, h1, h2, h3, h4, h5, hf]
  · have hf : check7 t = .error e := hfail
    have h1 : check1 t = .ok () := hprev 1 (by omega) (by omega)
    have h2 : check2 t = .ok () := hprev 2 (by omega) (by omega)
    have h3 : check3 t = .ok () := hprev 3 (by omega) (by omega)
    have h4 : check4 t = .ok () := hprev 4 (by omega) (by omega)
    have h5 : check5 t = .ok () := hprev 5 (by omega) (by omega)
    have h6 : check6 t = .ok () := hprev 6 (by omega) (by omega)
    simp [validate, checksBefore14, h1, h2, h3, h4, h5, h6, hf]
  · have hf : check8 t = .error e := hfail
    have h1 : check1 t = .ok () := hprev 1 (by omega) (by omega)
    have h2 : check2 t = .ok () := hprev 2 (by omega) (by omega)
    have h3 : check3 t = .ok () := hprev 3 (by omega) (by omega)
    have h4 : check4 t = .ok () := hprev 4 (by omega) (by omega)
    have h5 : check5 t = .ok () := hprev 5 (by omega) (by omega)
    have h6 : check6 t = .ok () := hprev 6 (by omega) (by omega)
    have h7 : check7 t = .ok () := hprev 7 (by omega) (by omega)
    simp [validate, checksBefore14, h1, h2, h3, h4, h5, h6, h7, hf]
  · have hf : check9 t = .error e := hfail
    have h1 : check1 t = .ok () := hprev 1 (by omega) (by omega)
    have h2 : check2 t = .ok () := hprev 2 (by omega) (by omega)
    have h3 : check3 t = .ok () := hprev 3 (by omega) (by omega)
    have h4 : check4 t = .ok () := hprev 4 (by omega) (by omega)
    have h5 : check5 t = .ok () := hprev 5 (by omega) (by omega)
    have h6 : check6 t = .ok () := hprev 6 (by omega) (by omega)
    have h7 : check7 t = .ok () := hprev 7 (by omega) (by omega)
    have h8 : check8 t = .ok () := hprev 8 (by omega) (by omega)
    simp [validate, checksBefore14, h1, h2, h3, h4, h5, h6, h7, h8, hf]
  · have hf : check10 t = .error e := hfail
    have h1 : check1 t = .ok () := hprev 1 (by omega) (by omega)
    have h2 : check2 t = .ok () := hprev 2 (by omega) (by omega)
    have h3 : check3 t = .ok () := hprev 3 (by omega) (by omega)
    have h4 : check4 t = .ok () := hprev 4 (by omega) (by omega)
    have h5 : check5 t = .ok () := hprev 5 (by omega) (by omega)
    have h6 : check6 t = .ok () := hprev 6 (by omega) (by omega)
    have h7 : check7 t = .ok () := hprev 7 (by omega) (by omega)
    have h8 : check8 t = .ok () := hprev 8 (by omega) (by omega)
    have h9 : check9 t = .ok () := hprev 9 (by omega) (by omega)
    simp [validate, checksBefore14, h1, h2, h3, h4, h5, h6, h7, h8, h9, hf]
  · have hf : check11 t = .error e := hfail
    have h1 : check1 t = .ok () := hprev 1 (by omega) (by omega)
    have h2 : check2 t = .ok () := hprev 2 (by omega) (by omega)
    have h3 : check3 t = .ok () := hprev 3 (by omega) (by omega)
    have h4 : check4 t = .ok () := hprev 4 (by omega) (by omega)
    have h5 : check5 t = .ok () := hprev 5 (by omega) (by omega)
    have h6 : check6 t = .ok () := hprev 6 (by omega) (by omega)
    have h7 : check7 t = .ok () := hprev 7 (by omega) (by omega)
    have h8 : check8 t = .ok () := hprev 8 (by omega) (by omega)
    have h9 : check9 t = .ok () := hprev 9 (by omega) (by omega)
    have h10 : check10 t = .ok () := hprev 10 (by omega) (by omega)
    simp [validate, checksBefore14, h1, h2, h3, h4, h5, h6, h7, h8, h9, h10, hf]
  · have hf : check12 t = .error e := hfail
    have h1 : check1 t = .ok () := hprev 1 (by omega) (by omega)
    have h2 : check2 t = .ok () := hprev 2 (by omega) (by omega)
    have h3 : check3 t = .ok () := hprev 3 (by omega) (by omega)
    have h4 : check4 t = .ok () := hprev 4 (by omega) (by omega)
    have h5 : check5 t = .ok () := hprev 5 (by omega) (by omega)
    have h6 : check6 t = .ok () := hprev 6 (by omega) (by omega)
    have h7 : check7 t = .ok () := hprev 7 (by omega) (by omega)
    have h8 : check8 t = .ok () := hprev 8 (by omega) (by omega)
    have h9 : check9 t = .ok () := hprev 9 (by omega) (by omega)
    have h10 : check10 t = .ok () := hprev 10 (by omega) (by omega)
    have h11 : check11 t = .ok () := hprev 11 (by omega) (by omega)
    simp [validate, checksBefore14, h1, h2, h3, h4, h5, h6, h7, h8, h9, h10, h11, hf]
  · have hf : check13 t = .error e := hfail
    have h1 : check1 t = .ok () := hprev 1 (by omega) (by omega)
    have h2 : check2 t = .ok () := hprev 2 (by omega) (by omega)
    have h3 : check3 t = .ok () := hprev 3 (by omega) (by omega)
    have h4 : check4 t = .ok () := hprev 4 (by omega) (by omega)
    have h5 : check5 t = .ok () := hprev 5 (by omega) (by omega)
    have h6 : check6 t = .ok () := hprev 6 (by omega) (by omega)
    have h7 : check7 t = .ok () := hprev 7 (by omega) (by omega)
    have h8 : check8 t = .ok () := hprev 8 (by omega) (by omega)
    have h9 : check9 t = .ok () := hprev 9 (by omega) (by omega)
    have h10 : check10 t = .ok () := hprev 10 (by omega) (by omega)
    have h11 : check11 t = .ok () := hprev 11 (by omega) (by omega)
    have h12 : check12 t = .ok () := hprev 12 (by omega) (by omega)
    simp [validate, checksBefore14, h1, h2, h3, h4, h5, h6, h7, h8, h9, h10, h11, h12, hf]
  · have hf : check14 t = .error e := hfail
    have h1 : check1 t = .ok () := hprev 1 (by omega) (by omega)
    have h2 : check2 t = .ok () := hprev 2 (by omega) (by omega)
    have h3 : check3 t = .ok () := hprev 3 (by omega) (by omega)
    have h4 : check4 t = .ok () := hprev 4 (by omega) (by omega)
    have h5 : check5 t = .ok () := hprev 5 (by omega) (by omega)
    have h6 : check6 t = .ok () := hprev 6 (by omega) (by omega)
    have h7 : check7 t = .ok () := hprev 7 (by omega) (by omega)
    have h8 : check8 t = .ok () := hprev 8 (by omega) (by omega)
    have h9 : check9 t = .ok () := hprev 9 (by omega) (by omega)
    have h10 : check10 t = .ok () := hprev 10 (by omega) (by omega)
    have h11 : check11 t = .ok () := hprev 11 (by omega) (by omega)
    have h12 : check12 t = .ok () := hprev 12 (by omega) (by omega)
    have h13 : check13 t = .ok () := hprev 13 (by omega) (by omega)
    simp [validate, checksBefore14, h1, h2, h3, h4, h5, h6, h7, h8, h9, h10, h11, h12, h13, hf]

/-- Claim C6, amended: for a table satisfying every data-model invariant
of the spec whose non-null run_accession values are all legal whenever
some sample is duplicated, validation succeeds and the main output table
has as many rows as the input; when the input columns are limited to the
six columns the spec names as read or transformed, the output column set
is exactly the seven named output columns.  (Extra input columns are
passed through into the output, and the extra run_accession hypothesis
is needed because check 13 scans every row once a duplicate exists.) -/
theorem spec_invariants_validate (t : Design)
    (hinv : specInvariants t = true)
    (hacc : hasDupSamples t = true →
      ∀ v, some v ∈ t.rows.map Row.run_accession → specLegalLabel v = true) :
    validate t = .ok () ∧
    (transform t).mainRows.length = t.rows.length ∧
    ((∀ c ∈ t.cols, c ∈ allowedInputCols) →
      ∀ c, (c ∈ (transform t).mainCols ↔ c ∈ outputHeader)) := by
  simp only [specInvariants, Bool.and_eq_true] at hinv
  obtain ⟨⟨⟨⟨⟨⟨⟨⟨⟨⟨hcols, hsamp⟩, hgp⟩, hgl⟩, hr1⟩, hsuf⟩, hnd1⟩, hnd2⟩, hgc⟩,
    hsepe⟩, hdra⟩ := hinv
  simp only [specSamplesOk, List.all_eq_true] at hsamp
  simp only [specGroupsLegal, List.all_eq_true] at hgl
  simp only [specRead1Ok, List.all_eq_true] at hr1
  simp only [specSuffixOk, List.all_eq_true, Bool.and_eq_true] at hsuf
  simp only [specGroupConsistency, List.all_eq_true] at hgc
  simp only [specSePeConsistency, List.all_eq_true] at hsepe
  unfold specRead1Nodup at hnd1
  unfold specRead2Nodup at hnd2
  unfold specColsOk at hcols
  -- check 1
  have hc1 : check1 t = .ok () := by simp [check1, hcols]
  -- check 2
  have hsamp2 : ∀ v ∈ t.rows.map Row.sample,
      ∃ s, v = some s ∧ match_legal_pattern s = .ok true := by
    intro v hv
    rcases List.mem_map.mp hv with ⟨r, hr, rfl⟩
    have hs := hsamp r hr
    cases hcase : r.sample with
    | none => rw [hcase] at hs; exact Bool.noConfusion hs
    | some s => rw [hcase] at hs; exact ⟨s, rfl, specLegal_accepted s hs⟩
  have hc2 : check2 t = .ok () := by
    unfold check2
    exact assertMap_ok _ (mapThenAll_ok_of _ _ _ hsamp2)
  -- check 3
  have hc3 : check3 t = .ok () := by
    unfold specGroupPresenceOk at hgp
    simp [check3, hgp]
  -- check 4
  have hgl2 : ∀ s, some s ∈ t.rows.map Row.group →
      match_legal_pattern s = .ok true := by
    intro s hs
    rcases List.mem_map.mp hs with ⟨r, hr, hrg⟩
    have hg := hgl r hr
    rw [hrg] at hg
    exact specLegal_accepted s hg
  have hc4 : check4 t = .ok () := by
    unfold check4
    exact assertMap_ok _ (mapIgnoreNa_ok_of _ _ hgl2)
  -- check 5
  have h5cond : (t.rows.map Row.read_1).all (fun v =>
      match v with
      | none => true
      | some s => s != "") = true := by
    rw [List.all_eq_true]
    intro v hv
    rcases List.mem_map.mp hv with ⟨r, hr, rfl⟩
    have hrr := hr1 r hr
    cases hcase : r.read_1 with
    | none => rfl
    | some s => rw [hcase] at hrr; exact hrr
  have hc5 : check5 t = .ok () := by simp [check5, h5cond]
  -- check 6
  have hsuf1 : ∀ v ∈ t.rows.map Row.read_1,
      ∃ s, v = some s ∧ check_fastq_suffix s = .ok true := by
    intro v hv
    rcases List.mem_map.mp hv with ⟨r, hr, rfl⟩
    have hs := (hsuf r hr).1
    cases hcase : r.read_1 with
    | none => rw [hcase] at hs; exact Bool.noConfusion hs
    | some s =>
        rw [hcase] at hs
        have hs2 : hasFqSuffix s = true := hs
        exact ⟨s, rfl, by simp [check_fastq_suffix, hs2]⟩
  have hc6 : check6 t = .ok () := by
    unfold check6
    exact assertMap_ok _ (mapThenAll_ok_of _ _ _ hsuf1)
  -- check 7
  have hsuf2 : ∀ s, some s ∈ t.rows.map Row.read_2 →
      check_fastq_suffix s = .ok true := by
    intro s hs
    rcases List.mem_map.mp hs with ⟨r, hr, hrg⟩
    have hg := (hsuf r hr).2
    rw [hrg] at hg
    have hg2 : hasFqSuffix s = true := hg
    simp [check_fastq_suffix, hg2]
  have hc7 : check7 t = .ok () := by
    unfold check7
    exact assertMap_ok _ (mapIgnoreNa_ok_of _ _ hsuf2)
  -- checks 8 and 9
  have hc8 : check8 t = .ok () := by
    have hdf := (hasDuplicates_eq_false_iff (t.rows.map Row.read_1)).mpr
      (of_decide_eq_true hnd1)
    simp [check8, hdf]
  have hc9 : check9 t = .ok () := by
    have hdf := (hasDuplicates_eq_false_iff
      ((t.rows.map Row.read_2).filterMap id)).mpr (of_decide_eq_true hnd2)
    simp only [check9]
    rw [hdf]
    rfl
  -- facts shared by the groupby checks
  have hgroup_sub : ∀ k, ∀ r ∈ groupOf t.rows k, r ∈ t.rows :=
    fun k => groupOf_sub t.rows k
  -- check 10
  have h10 : ∀ k ∈ groupKeys (t.rows.map Row.sample),
      groupLabelConsistent (groupOf t.rows k) = true := by
    intro k hk
    have hne := groupOf_ne_nil t.rows k ((mem_groupKeys _ _).mp hk)
    obtain ⟨r0, hr0⟩ := List.exists_mem_of_ne_nil _ hne
    have hall : ∀ a ∈ (groupOf t.rows k).map Row.group, a = r0.group := by
      intro a ha
      rcases List.mem_map.mp ha with ⟨r, hrmem, rfl⟩
      have e1 := groupOf_sample t.rows k r0 hr0
      have e2 := groupOf_sample t.rows k r hrmem
      have heq : r.sample = r0.sample := by rw [e1, e2]
      have hor := hgc r (hgroup_sub k r hrmem) r0 (hgroup_sub k r0 hr0)
      rw [heq] at hor
      simp only [bne_self_eq_false, Bool.false_or] at hor
      exact eq_of_beq hor
    unfold groupLabelConsistent
    rw [dedupList_eq_singleton r0.group _ (fun hmm => hne (by simpa using hmm)) hall]
    rfl
  have hc10 : check10 t = .ok () := by
    have hbad : (groupKeys (t.rows.map Row.sample)).filter
        (fun k => !groupLabelConsistent (groupOf t.rows k)) = [] :=
      List.filter_eq_nil_iff.mpr (fun k hk => by simp [h10 k hk])
    simp [check10, hbad]
  -- check 11
  have h11 : ∀ k ∈ groupKeys (t.rows.map Row.sample),
      check_all_se_or_all_pe (groupOf t.rows k) = true := by
    intro k hk
    have hne := groupOf_ne_nil t.rows k ((mem_groupKeys _ _).mp hk)
    obtain ⟨r0, hr0⟩ := List.exists_mem_of_ne_nil _ hne
    have hsame : ∀ r ∈ groupOf t.rows k,
        r.read_2.isSome = r0.read_2.isSome := by
      intro r hrmem
      have e1 := groupOf_sample t.rows k r0 hr0
      have e2 := groupOf_sample t.rows k r hrmem
      have heq : r.sample = r0.sample := by rw [e1, e2]
      have hor := hsepe r (hgroup_sub k r hrmem) r0 (hgroup_sub k r0 hr0)
      rw [heq] at hor
      simp only [bne_self_eq_false, Bool.false_or] at hor
      exact eq_of_beq hor
    have hr1some : ∀ v ∈ (groupOf t.rows k).map Row.read_1,
        v.isSome = true := by
      intro v hv
      rcases List.mem_map.mp hv with ⟨r, hrmem, rfl⟩
      have hrr := hr1 r (hgroup_sub k r hrmem)
      cases hcase : r.read_1 with
      | none => rw [hcase] at hrr; exact Bool.noConfusion hrr
      | some s => rfl
    cases hror : r0.read_2 with
    | none =>
        have hzero : seriesCount ((groupOf t.rows k).map Row.read_2) = 0 := by
          apply seriesCount_eq_zero
          intro v hv
          rcases List.mem_map.mp hv with ⟨r, hrmem, rfl⟩
          have hiso := hsame r hrmem
          rw [hror] at hiso
          cases hcase : r.read_2 with
          | none => rfl
          | some s2 => rw [hcase] at hiso; exact Bool.noConfusion hiso
        simp [check_all_se_or_all_pe, hzero]
    | some s0 =>
        have hlen2 : seriesCount ((groupOf t.rows k).map Row.read_2) =
            ((groupOf t.rows k).map Row.read_2).length := by
          apply seriesCount_eq_length
          intro v hv
          rcases List.mem_map.mp hv with ⟨r, hrmem, rfl⟩
          have hiso := hsame r hrmem
          rw [hror] at hiso
          exact hiso
        have hlen1 : seriesCount ((groupOf t.rows k).map Row.read_1) =
            ((groupOf t.rows k).map Row.read_1).length :=
          seriesCount_eq_length _ hr1some
        simp [check_all_se_or_all_pe, hlen1, hlen2]
  have hc11 : check11 t = .ok () := by
    have hbad : (groupKeys (t.rows.map Row.sample)).filter
        (fun k => !check_all_se_or_all_pe (groupOf t.rows k)) = [] :=
      List.filter_eq_nil_iff.mpr (fun k hk => by simp [h11 k hk])
    simp [check11, hbad]
  -- checks 12, 13 and 14
  have h121314 : check12 t = .ok () ∧ check13 t = .ok () ∧ check14 t = .ok () := by
    by_cases hd : hasDupSamples t = true
    · have hrep : specAnySampleRepeats t = true := by
        rw [anySampleRepeats_iff]
        unfold hasDupSamples at hd
        exact (hasDuplicates_eq_true_iff _).mp hd
      unfold specDupRunAccOk at hdra
      rw [hrep] at hdra
      simp only [Bool.not_true, Bool.false_or, Bool.and_eq_true] at hdra
      obtain ⟨hmemcol, hkeys⟩ := hdra
      have hmemcol2 : "run_accession" ∈ t.cols := of_decide_eq_true hmemcol
      have hc12 : check12 t = .ok () := by simp [check12, hd, hmemcol2]
      have hb13 := mapIgnoreNa_ok_of match_legal_pattern
        (t.rows.map Row.run_accession)
        (fun s hs => specLegal_accepted s (hacc hd s hs))
      have hc13 : check13 t = .ok () := by
        unfold check13
        rw [if_pos hd]
        exact assertMap_ok _ hb13
      have hc14 : check14 t = .ok () := by
        unfold check14
        rw [if_pos hd]
        apply check14iter_ok_of
        intro k hk
        rw [List.all_eq_true] at hkeys
        have hkk := hkeys k hk
        simp only [Bool.or_eq_true, decide_eq_true_eq, Bool.and_eq_true] at hkk
        rintro ⟨hlen, hneq⟩
        rcases hkk with hle | ⟨hallsome, hnd⟩
        · omega
        · apply hneq
          unfold accNunique
          rw [dedupList_eq_self_of_nodup _ hnd]
          have hsome : ∀ v ∈ (groupOf t.rows k).map Row.run_accession,
              v.isSome = true := by
            intro v hv
            rcases List.mem_map.mp hv with ⟨r, hrmem, rfl⟩
            rw [List.all_eq_true] at hallsome
            have hra := hallsome r hrmem
            cases hcase : r.run_accession with
            | none => rw [hcase] at hra; exact Bool.noConfusion hra
            | some s => rfl
          have hls := seriesCount_eq_length _ hsome
          unfold seriesCount at hls
          rw [List.length_map] at hls
          exact hls.symm
      exact ⟨hc12, hc13, hc14⟩
    · rw [Bool.not_eq_true] at hd
      exact ⟨by simp [check12, hd], by simp [check13, hd], by simp [check14, hd]⟩
  obtain ⟨hc12, hc13, hc14⟩ := h121314
  refine ⟨?_, by simp [transform], ?_⟩
  · simp [validate, checksBefore14, hc1, hc2, hc3, hc4, hc5, hc6, hc7, hc8, hc9,
      hc10, hc11, hc12, hc13, hc14]
  · intro hsubcols c
    have h4 : ∀ x ∈ HEADER, x ∈ t.cols := by
      intro x hx
      rw [List.all_eq_true] at hcols
      exact of_decide_eq_true (hcols x hx)
    simpa [transform] using mem_outputCols t.cols h4 hsubcols c

/-- Claim C6, witness: the duplicated table with distinct legal run
accessions satisfies the hypotheses and instantiates the conclusion. -/
theorem spec_invariants_validate_witness :
    validate tDupGood = .ok () ∧
    (transform tDupGood).mainRows.length = tDupGood.rows.length ∧
    ("fastq_1" ∈ (transform tDupGood).mainCols ↔ "fastq_1" ∈ outputHeader) := by
  have h := spec_invariants_validate tDupGood (by decide)
    (fun _ v hv => by
      simp [tDupGood] at hv
      rcases hv with rfl | rfl <;> decide)
  exact ⟨h.1, h.2.1, h.2.2 (by decide) "fastq_1"⟩

/-- Claim C5, witness: a table whose earliest implemented failure is
check 2 reports exactly the check-2 error. -/
theorem first_failing_check_reported_witness :
    validate tBadLabel = Except.error (.printError
      "Sample/Group label contain illegal characters or does not start with letters"
      "Label" "1abc") :=
  first_failing_check_reported tBadLabel 2 _ (by omega) (by omega)
    (fun j hj1 hj2 => by interval_cases j; rfl) rfl

end CheckSamplesheet
